import Mathlib

set_option maxHeartbeats 1000000

deriving instance DecidableEq for Except

namespace ledgerbackend

/-- The uint32 modulus: Go arithmetic on uint32 values is performed modulo 2^32. -/
def u32 : Nat := 2 ^ 32

/-- Suffix for TxMeta files (source constant fileSuffix). -/
def fileSuffix : String := ".xdr.gz"

/-- Source constant ledgersPerFile = 1 used by the backend itself. -/
def ledgersPerFileC : Nat := 1

/-- Source constant filesPerPartition = 64000 used by the backend itself. -/
def filesPerPartitionC : Nat := 64000

/-- Numeric value of a list of decimal digit characters, most significant first. -/
def digitsVal (l : List Char) : Nat :=
  l.foldl (fun a c => a * 10 + (c.toNat - 48)) 0

/-- Go strconv.ParseUint(s, 10, 32): a nonempty string of decimal digits whose
value fits in 32 bits parses to that value; anything else is an error (none). -/
def goParseUint32 (s : String) : Option Nat :=
  let cs := s.toList
  if cs ≠ [] ∧ cs.all Char.isDigit then
    if digitsVal cs < u32 then some (digitsVal cs) else none
  else none

/-- Go strconv.Atoi(s), i.e. ParseInt(s, 10, 0) on a 64-bit platform: an
optional single sign followed by a nonempty string of decimal digits, with the
value within the int64 range; anything else is an error (none). -/
def goAtoi (s : String) : Option Int :=
  match s.toList with
  | [] => none
  | c :: rest =>
    let digits : List Char := if c = '-' ∨ c = '+' then rest else c :: rest
    if digits ≠ [] ∧ digits.all Char.isDigit then
      if c = '-' then
        if digitsVal digits ≤ 2 ^ 63 then some (-(digitsVal digits : Int)) else none
      else
        if digitsVal digits ≤ 2 ^ 63 - 1 then some (digitsVal digits : Int) else none
    else none

/-- Go strings.Split with a one-character separator, on the character list of
the string: substrings between consecutive separators, empty parts kept, and
the empty input giving one empty part, as in Go. -/
def splitOnChar (sep : Char) : List Char → List (List Char)
  | [] => [[]]
  | c :: rest =>
    match splitOnChar sep rest with
    | [] => if c = sep then [[], []] else [[c]]
    | h :: t => if c = sep then [] :: h :: t else (c :: h) :: t

/-- Go strings.Split with a one-character separator, as a String function. -/
def goSplit (s : String) (sep : Char) : List String :=
  (splitOnChar sep s.toList).map (fun l => String.mk l)

/-- Go strings.TrimSuffix: drop the trailing occurrence when present, else
return the string unchanged. -/
def goTrimSuffix (s suf : String) : String :=
  let cs := s.toList
  let sl := suf.toList
  if cs.reverse.take sl.length = sl.reverse then String.mk (cs.take (cs.length - sl.length))
  else s

/-- Go strings.TrimPrefix: drop the leading occurrence when present, else
return the string unchanged. -/
def goTrimPref (s pre : String) : String :=
  let cs := s.toList
  let pl := pre.toList
  if cs.take pl.length = pl then String.mk (cs.drop pl.length) else s

/-- The trailing path segment of a directory name: the source splits on "/" and
takes the last element (strings.Split never returns an empty list). -/
def lastPart (dir : String) : String :=
  (goSplit dir '/').getLastD ""

/-- Errors of GetObjectKeyFromSequenceNumber: the explicit configuration error
returned when ledgersPerFile < 1, and the Go runtime division-by-zero fault hit
when filesPerPartition > 1 while ledgersPerFile * filesPerPartition wraps to 0
modulo 2^32. -/
inductive KeyError where
  | configError
  | divByZero
deriving DecidableEq, Repr

/-- partitionSize = ledgersPerFile * filesPerPartition in uint32 arithmetic. -/
def partitionSizeOf (ledgersPerFile filesPerPartition : Nat) : Nat :=
  ledgersPerFile * filesPerPartition % u32

/-- The partition directory part of the object key, in uint32 arithmetic. -/
def partitionPref (ledgerSeq ledgersPerFile filesPerPartition : Nat) : String :=
  let ps := partitionSizeOf ledgersPerFile filesPerPartition
  let partitionStart := ledgerSeq / ps * ps % u32
  toString partitionStart ++ "-" ++ toString ((partitionStart + ps - 1) % u32) ++ "/"

/-- fileStart = (ledgerSeq / ledgersPerFile) * ledgersPerFile in uint32 arithmetic. -/
def fileStartOf (ledgerSeq ledgersPerFile : Nat) : Nat :=
  ledgerSeq / ledgersPerFile * ledgersPerFile % u32

/-- fileEnd = fileStart + ledgersPerFile - 1 in uint32 arithmetic. -/
def fileEndOf (ledgerSeq ledgersPerFile : Nat) : Nat :=
  (fileStartOf ledgerSeq ledgersPerFile + ledgersPerFile - 1) % u32

/-- GetObjectKeyFromSequenceNumber from the source, with every uint32 operation
taken modulo 2^32; the division by partitionSize at source line 177 is a Go
runtime fault when partitionSize wraps to 0, modelled as the divByZero error. -/
def GetObjectKeyFromSequenceNumber (ledgerSeq ledgersPerFile filesPerPartition : Nat) :
    Except KeyError String :=
  if ledgersPerFile < 1 then .error .configError
  else if filesPerPartition > 1 ∧ partitionSizeOf ledgersPerFile filesPerPartition = 0 then
    .error .divByZero
  else
    let fs := fileStartOf ledgerSeq ledgersPerFile
    let fe := fileEndOf ledgerSeq ledgersPerFile
    .ok ((if filesPerPartition > 1 then
            partitionPref ledgerSeq ledgersPerFile filesPerPartition
          else "")
      ++ toString fs ++ (if fs ≠ fe then "-" ++ toString fe else "") ++ fileSuffix)

/-- Stage-1 error: an Atoi failure on the second part of a two-part trailing
segment aborts getLatestDirectory (source lines 207-210). -/
inductive DirError where
  | parseError (dir : String)
deriving DecidableEq, Repr

/-- The parts of the trailing path segment of a directory name, split on "-"
(the local variable parts at source line 204). -/
def dirParts (dir : String) : List String :=
  goSplit (lastPart dir) '-'

/-- The Atoi result on the second part of the trailing segment (the upper
value at source line 207). -/
def dirEndVal (dir : String) : Option Int :=
  goAtoi ((dirParts dir).getD 1 "")

/-- The trailing end value of a directory name considered by the loop: present
only when the trailing segment splits into exactly two parts and the second
part parses. -/
def dirEnd (dir : String) : Option Int :=
  if (dirParts dir).length = 2 then dirEndVal dir else none

/-- The loop of getLatestDirectory: latest is the directory selected so far and
largest the largest trailing end value so far (the source starts from "" and
the int value 0). -/
def getLatestDirectoryAux : List String → String → Int → Except DirError String
  | [], latest, _ => .ok latest
  | dir :: rest, latest, largest =>
    if (dirParts dir).length = 2 then
      match dirEndVal dir with
      | none => .error (.parseError dir)
      | some upper =>
        if upper > largest then getLatestDirectoryAux rest dir upper
        else getLatestDirectoryAux rest latest largest
    else getLatestDirectoryAux rest latest largest

/-- getLatestDirectory from the source. -/
def getLatestDirectory (directories : List String) : Except DirError String :=
  getLatestDirectoryAux directories "" 0

/-- Stage-2 error: an unparsable file name aborts
getLatestFileNameLedgerSequence (source lines 229-232). -/
inductive FileError where
  | parseError (fileName : String)
deriving DecidableEq, Repr

/-- The trimmed-and-parsed ledger sequence of one file name
(source lines 227-229). -/
def fileSeqOf (directory fileName : String) : Option Nat :=
  goParseUint32 (goTrimPref (goTrimSuffix fileName fileSuffix) (directory ++ "/"))

/-- The loop of getLatestFileNameLedgerSequence, carrying the largest parsed
sequence so far (the source starts from uint32 0). -/
def getLatestFileNameLedgerSequenceAux (directory : String) :
    List String → Nat → Except FileError Nat
  | [], latest => .ok latest
  | fileName :: rest, latest =>
    match fileSeqOf directory fileName with
    | none => .error (.parseError fileName)
    | some v =>
      getLatestFileNameLedgerSequenceAux directory rest (if v > latest then v else latest)

/-- getLatestFileNameLedgerSequence from the source. -/
def getLatestFileNameLedgerSequence (fileNames : List String) (directory : String) :
    Except FileError Nat :=
  getLatestFileNameLedgerSequenceAux directory fileNames 0

/-- Error type of GetLatestLedgerSequence: the wrapped stage-1 or stage-2
failure. -/
inductive BackendError where
  | dirError (e : DirError)
  | fileError (e : FileError)
deriving DecidableEq, Repr

/-- GetLatestLedgerSequence with the object-store listings injected as pure
collaborators: listDirs is the directory listing and listFiles the file
listing of a directory (store-level listing failures are outside the model). -/
def GetLatestLedgerSequence (listDirs : List String) (listFiles : String → List String) :
    Except BackendError Nat :=
  match getLatestDirectory listDirs with
  | .error e => .error (.dirError e)
  | .ok latestDirectory =>
    match getLatestFileNameLedgerSequence (listFiles latestDirectory) latestDirectory with
    | .error e => .error (.fileError e)
    | .ok latestLedgerSequence => .ok latestLedgerSequence

/-- xdr.LedgerCloseMetaBatch: a start sequence and the ordered batch records;
the record payload type is abstract. -/
structure LedgerCloseMetaBatch (α : Type) where
  startSequence : Nat
  ledgerCloseMetas : List α
deriving DecidableEq, Repr

/-- Outcome of GetLedger: a record, a returned wrapped error, or the Go runtime
fault raised by the unchecked slice indexing at source line 134. -/
inductive GetLedgerResult (α : Type) where
  | ok (lcm : α)
  | err (msg : String)
  | indexOutOfRange (index len : Nat)
deriving DecidableEq, Repr

/-- GetLedger with the fetch-and-decode pipeline (GetFile, gzip.NewReader,
io.ReadAll, UnmarshalBinary; source lines 109-131) injected as one fallible
collaborator from object keys to decoded batches; its error stands for any of
NotFound, bad gzip framing, read failure or unmarshal failure, each of which
GetLedger wraps into a returned error. The index into the batch is computed in
uint32 arithmetic and used without any bounds check, exactly as at source
lines 133-134. -/
def GetLedger {α : Type} (fetchDecode : String → Except String (LedgerCloseMetaBatch α))
    (sequence : Nat) : GetLedgerResult α :=
  match GetObjectKeyFromSequenceNumber sequence ledgersPerFileC filesPerPartitionC with
  | .error _ => .err "failed to get object key for ledger"
  | .ok objectKey =>
    match fetchDecode objectKey with
    | .error m => .err (m ++ ": " ++ objectKey)
    | .ok batch =>
      let index := (sequence % u32 + u32 - batch.startSequence % u32) % u32
      match batch.ledgerCloseMetas.get? index with
      | some lcm => .ok lcm
      | none => .indexOutOfRange index batch.ledgerCloseMetas.length

/-- Whether a GetLedger outcome is a successfully returned record. -/
def GetLedgerResult.isOk {α : Type} : GetLedgerResult α → Bool
  | .ok _ => true
  | _ => false

/-- Range from the source; the source field names are from, to and bounded
(from is a reserved word in Lean, hence fromSeq and toSeq). -/
structure Range where
  fromSeq : Nat
  toSeq : Nat
  bounded : Bool
deriving DecidableEq, Repr

/-- Outcome of PrepareRange: success, a returned wrapped error, or a propagated
Go runtime fault from GetLedger. -/
inductive PrepareResult where
  | ok
  | err (msg : String)
  | fault (index len : Nat)
deriving DecidableEq, Repr

/-- PrepareRange with GetLedger injected; the second component records the
sequences probed via getLedger, in call order, so which boundaries were
checked is part of the model. Error wrapping follows source lines 143
and 149. -/
def PrepareRange {α : Type} (getLedger : Nat → GetLedgerResult α) (ledgerRange : Range) :
    PrepareResult × List Nat :=
  match getLedger ledgerRange.fromSeq with
  | .err e =>
    (.err ("error getting ledger " ++ toString ledgerRange.fromSeq ++ ": " ++ e),
      [ledgerRange.fromSeq])
  | .indexOutOfRange i l => (.fault i l, [ledgerRange.fromSeq])
  | .ok _ =>
    if ledgerRange.bounded then
      match getLedger ledgerRange.toSeq with
      | .err e =>
        (.err ("error getting ending ledger " ++ toString ledgerRange.toSeq ++ ": " ++ e),
          [ledgerRange.fromSeq, ledgerRange.toSeq])
      | .indexOutOfRange i l => (.fault i l, [ledgerRange.fromSeq, ledgerRange.toSeq])
      | .ok _ => (.ok, [ledgerRange.fromSeq, ledgerRange.toSeq])
    else (.ok, [ledgerRange.fromSeq])

lemma dirAux_cons_skip (dir : String) (rest : List String) (latest : String) (largest : Int)
    (h : (dirParts dir).length ≠ 2) :
    getLatestDirectoryAux (dir :: rest) latest largest =
      getLatestDirectoryAux rest latest largest := by
  simp [getLatestDirectoryAux, h]

lemma dirAux_cons_bad (dir : String) (rest : List String) (latest : String) (largest : Int)
    (h2 : (dirParts dir).length = 2) (hb : dirEndVal dir = none) :
    getLatestDirectoryAux (dir :: rest) latest largest = .error (.parseError dir) := by
  simp [getLatestDirectoryAux, h2, hb]

lemma dirAux_cons_gt (dir : String) (rest : List String) (latest : String) (largest m : Int)
    (h2 : (dirParts dir).length = 2) (hv : dirEndVal dir = some m) (hgt : m > largest) :
    getLatestDirectoryAux (dir :: rest) latest largest =
      getLatestDirectoryAux rest dir m := by
  simp [getLatestDirectoryAux, h2, hv, hgt]

lemma dirAux_cons_le (dir : String) (rest : List String) (latest : String) (largest m : Int)
    (h2 : (dirParts dir).length = 2) (hv : dirEndVal dir = some m) (hle : ¬ m > largest) :
    getLatestDirectoryAux (dir :: rest) latest largest =
      getLatestDirectoryAux rest latest largest := by
  simp [getLatestDirectoryAux, h2, hv, hle]

lemma dirAux_all_skip (dirs : List String) :
    ∀ (latest : String) (largest : Int), (∀ d ∈ dirs, (dirParts d).length ≠ 2) →
    getLatestDirectoryAux dirs latest largest = .ok latest := by
  induction dirs with
  | nil => intro _ _ _; rfl
  | cons dir rest ih =>
    intro latest largest h
    rw [dirAux_cons_skip dir rest latest largest (h dir (by simp))]
    exact ih latest largest (fun d hd => h d (by simp [hd]))

lemma dirAux_skip_invariant (pre : List String) :
    ∀ (dir : String) (post : List String) (latest : String) (largest : Int),
    (dirParts dir).length ≠ 2 →
    getLatestDirectoryAux (pre ++ dir :: post) latest largest =
      getLatestDirectoryAux (pre ++ post) latest largest := by
  induction pre with
  | nil => intro dir post latest largest h; exact dirAux_cons_skip dir post latest largest h
  | cons p pre' ih =>
    intro dir post latest largest h
    by_cases h2 : (dirParts p).length = 2
    · rcases ho : dirEndVal p with _ | mp
      · rw [List.cons_append, List.cons_append, dirAux_cons_bad p _ latest largest h2 ho,
          dirAux_cons_bad p _ latest largest h2 ho]
      · by_cases hc : mp > largest
        · rw [List.cons_append, List.cons_append,
            dirAux_cons_gt p _ latest largest mp h2 ho hc,
            dirAux_cons_gt p _ latest largest mp h2 ho hc]
          exact ih dir post p mp h
        · rw [List.cons_append, List.cons_append,
            dirAux_cons_le p _ latest largest mp h2 ho hc,
            dirAux_cons_le p _ latest largest mp h2 ho hc]
          exact ih dir post latest largest h
    · rw [List.cons_append, List.cons_append,
        dirAux_cons_skip p _ latest largest h2, dirAux_cons_skip p _ latest largest h2]
      exact ih dir post latest largest h

lemma dirAux_all_le (dirs : List String) :
    ∀ (latest : String) (largest : Int),
    (∀ d ∈ dirs, (dirParts d).length = 2 → dirEndVal d ≠ none) →
    (∀ d ∈ dirs, ∀ m, dirEnd d = some m → ¬ m > largest) →
    getLatestDirectoryAux dirs latest largest = .ok latest := by
  induction dirs with
  | nil => intro _ _ _ _; rfl
  | cons dir rest ih =>
    intro latest largest hok hle
    by_cases h2 : (dirParts dir).length = 2
    · rcases ho : dirEndVal dir with _ | m
      · exact absurd ho (hok dir (by simp) h2)
      · have hm : dirEnd dir = some m := by simp [dirEnd, h2, ho]
        rw [dirAux_cons_le dir rest latest largest m h2 ho (hle dir (by simp) m hm)]
        exact ih latest largest (fun d hd => hok d (by simp [hd]))
          (fun d hd m' hm' => hle d (by simp [hd]) m' hm')
    · rw [dirAux_cons_skip dir rest latest largest h2]
      exact ih latest largest (fun d hd => hok d (by simp [hd]))
        (fun d hd m' hm' => hle d (by simp [hd]) m' hm')

lemma dirAux_first_max (pre : List String) :
    ∀ (latest : String) (largest : Int) (d : String) (post : List String) (m : Int),
    (∀ q ∈ pre ++ d :: post, (dirParts q).length = 2 → dirEndVal q ≠ none) →
    dirEnd d = some m → m > largest →
    (∀ p ∈ pre, ∀ m', dirEnd p = some m' → m' < m) →
    (∀ q ∈ post, ∀ m', dirEnd q = some m' → ¬ m' > m) →
    getLatestDirectoryAux (pre ++ d :: post) latest largest = .ok d := by
  induction pre with
  | nil =>
    intro latest largest d post m hok hd hgt _ hpost
    have h2 : (dirParts d).length = 2 := by
      by_contra h; simp [dirEnd, h] at hd
    have hv : dirEndVal d = some m := by simpa [dirEnd, h2] using hd
    rw [List.nil_append, dirAux_cons_gt d post latest largest m h2 hv hgt]
    exact dirAux_all_le post d m (fun q hq => hok q (by simp [hq])) hpost
  | cons p pre' ih =>
    intro latest largest d post m hok hd hgt hpre hpost
    have hok' : ∀ q ∈ pre' ++ d :: post, (dirParts q).length = 2 → dirEndVal q ≠ none :=
      fun q hq => hok q (by simp [hq])
    have hpre' : ∀ q ∈ pre', ∀ m', dirEnd q = some m' → m' < m :=
      fun q hq m' hm' => hpre q (by simp [hq]) m' hm'
    by_cases h2 : (dirParts p).length = 2
    · rcases ho : dirEndVal p with _ | mp
      · exact absurd ho (hok p (by simp) h2)
      · have hmp : dirEnd p = some mp := by simp [dirEnd, h2, ho]
        have hlt : mp < m := hpre p (by simp) mp hmp
        by_cases hc : mp > largest
        · rw [List.cons_append, dirAux_cons_gt p _ latest largest mp h2 ho hc]
          exact ih p mp d post m hok' hd hlt hpre' hpost
        · rw [List.cons_append, dirAux_cons_le p _ latest largest mp h2 ho hc]
          exact ih latest largest d post m hok' hd hgt hpre' hpost
    · rw [List.cons_append, dirAux_cons_skip p _ latest largest h2]
      exact ih latest largest d post m hok' hd hgt hpre' hpost

lemma fileAux_cons_bad (directory fileName : String) (rest : List String) (latest : Nat)
    (h : fileSeqOf directory fileName = none) :
    getLatestFileNameLedgerSequenceAux directory (fileName :: rest) latest =
      .error (.parseError fileName) := by
  simp [getLatestFileNameLedgerSequenceAux, h]

lemma fileAux_cons_ok (directory fileName : String) (rest : List String) (latest v : Nat)
    (h : fileSeqOf directory fileName = some v) :
    getLatestFileNameLedgerSequenceAux directory (fileName :: rest) latest =
      getLatestFileNameLedgerSequenceAux directory rest (if v > latest then v else latest) := by
  simp [getLatestFileNameLedgerSequenceAux, h]

lemma fileAux_all_parse (fileNames : List String) (directory : String) :
    ∀ latest : Nat, (∀ f ∈ fileNames, (fileSeqOf directory f).isSome) →
    ∃ m, getLatestFileNameLedgerSequenceAux directory fileNames latest = .ok m ∧
      latest ≤ m ∧
      (∀ f ∈ fileNames, ∀ v, fileSeqOf directory f = some v → v ≤ m) ∧
      (m = latest ∨ ∃ f ∈ fileNames, fileSeqOf directory f = some m) := by
  induction fileNames with
  | nil => intro latest _; exact ⟨latest, rfl, le_refl _, by simp, Or.inl rfl⟩
  | cons f rest ih =>
    intro latest hall
    rcases hf : fileSeqOf directory f with _ | v
    · have hcontra := hall f (by simp)
      rw [hf] at hcontra
      simp at hcontra
    · obtain ⟨m, hm, hle, hbound, hatt⟩ :=
        ih (if v > latest then v else latest) (fun g hg => hall g (by simp [hg]))
      have hv_le : v ≤ if v > latest then v else latest := by
        by_cases h : v > latest <;> simp [h] <;> omega
      have hlatest_le : latest ≤ if v > latest then v else latest := by
        by_cases h : v > latest <;> simp [h] <;> omega
      refine ⟨m, ?_, le_trans hlatest_le hle, ?_, ?_⟩
      · rw [fileAux_cons_ok directory f rest latest v hf]; exact hm
      · intro g hg w hw
        rcases List.mem_cons.mp hg with rfl | hg'
        · rw [hf] at hw
          injection hw with hw'
          exact hw' ▸ le_trans hv_le hle
        · exact hbound g hg' w hw
      · rcases hatt with heq | ⟨g, hg, hgm⟩
        · by_cases h : v > latest
          · right
            refine ⟨f, by simp, ?_⟩
            rw [hf, heq, if_pos h]
          · left
            rw [heq, if_neg h]
        · right
          exact ⟨g, by simp [hg], hgm⟩

lemma fileAux_exists_bad (fileNames : List String) (directory : String) :
    ∀ latest : Nat, (∃ f ∈ fileNames, fileSeqOf directory f = none) →
    ∃ f ∈ fileNames, fileSeqOf directory f = none ∧
      getLatestFileNameLedgerSequenceAux directory fileNames latest =
        .error (.parseError f) := by
  induction fileNames with
  | nil => intro _ h; simp at h
  | cons f rest ih =>
    intro latest hex
    rcases hf : fileSeqOf directory f with _ | v
    · exact ⟨f, by simp, hf, fileAux_cons_bad directory f rest latest hf⟩
    · obtain ⟨g, hg, hgnone⟩ := hex
      rcases List.mem_cons.mp hg with rfl | hg'
      · rw [hf] at hgnone; cases hgnone
      · obtain ⟨g', hgmem, hnone', heq⟩ := ih _ ⟨g, hg', hgnone⟩
        exact ⟨g', by simp [hgmem], hnone',
          by rw [fileAux_cons_ok directory f rest latest v hf]; exact heq⟩

/-- Batch fetched in the C1 failing scenario: startSequence 10 with two
records, probed at sequence 5, which is outside the batch. -/
def batchOutOfRange : LedgerCloseMetaBatch Nat :=
  { startSequence := 10, ledgerCloseMetas := [100, 101] }

/-- Claim C1 (code_bug): GetLedger indexes the decoded batch without any
bounds check. For a sequence inside the fetched batch it does return the
record at position sequence - startSequence (second conjunct), but for a
sequence outside [startSequence, startSequence + len) the uint32 index wraps
and the slice access is a Go runtime index-out-of-range fault, not a returned
RangeError: at sequence 5 against a batch starting at 10 with two records the
computed index is 2^32 - 5. -/
theorem C1_getLedger_unchecked_index :
    GetLedger (fun _ => .ok batchOutOfRange) 5 = .indexOutOfRange (u32 - 5) 2 ∧
    GetLedger (fun _ => .ok ({ startSequence := 4, ledgerCloseMetas := [100, 101] } :
      LedgerCloseMetaBatch Nat)) 5 = .ok 101 := by
  constructor
  · decide
  · decide

/-- Claim C2 (counterexample): on the exact directory list of the claim, the
name bad-dir has the two-part trailing segment bad-dir whose second part dir
is not numeric, so the scan aborts with a parse error instead of skipping it
and selecting ledgers/net/64000-127999. -/
theorem C2_counterexample :
    getLatestDirectory ["ledgers/net/0-63999", "ledgers/net/64000-127999", "bad-dir"] =
      .error (.parseError "bad-dir") ∧
    GetLatestLedgerSequence ["ledgers/net/0-63999", "ledgers/net/64000-127999", "bad-dir"]
      (fun _ => ["ledgers/net/64000-127999/127999.xdr.gz"]) =
      .error (.dirError (.parseError "bad-dir")) := by
  constructor
  · decide
  · decide

/-- Claim C2 (amended): in stage 1, a directory name whose trailing segment
does not split on "-" into exactly two parts is skipped without error and
without affecting the result; but when the trailing segment has exactly two
parts and the second part is not numeric, the whole operation fails, so on
the claim's list findLatest fails with a parse error on bad-dir instead of
selecting ledgers/net/64000-127999. -/
theorem C2_malformed_dirs :
    (∀ (pre : List String) (dir : String) (post : List String),
      (dirParts dir).length ≠ 2 →
      getLatestDirectory (pre ++ dir :: post) = getLatestDirectory (pre ++ post)) ∧
    getLatestDirectory ["ledgers/net/0-63999", "ledgers/net/64000-127999", "bad-dir"] =
      .error (.parseError "bad-dir") := by
  constructor
  · intro pre dir post h
    unfold getLatestDirectory
    exact dirAux_skip_invariant pre dir post "" 0 h
  · decide

/-- Witness for C2_malformed_dirs at a concrete skipped name. -/
theorem C2_malformed_dirs_witness :
    getLatestDirectory (["x/0-5"] ++ "nosplit" :: ["y/0-9"]) =
      getLatestDirectory (["x/0-5"] ++ ["y/0-9"]) :=
  C2_malformed_dirs.1 ["x/0-5"] "nosplit" ["y/0-9"] (by decide)

/-- Claim C3 (counterexample): with an empty directory listing, in which no
name is well-formed, findLatest does not return an error: getLatestDirectory
returns the empty directory with a nil error and the operation proceeds,
yielding sequence 0 when the store lists no files under the empty
directory. -/
theorem C3_counterexample :
    getLatestDirectory [] = .ok "" ∧
    GetLatestLedgerSequence [] (fun _ => []) = .ok 0 := by
  constructor
  · decide
  · decide

/-- Claim C3 (amended): when no directory name has a trailing segment that
splits on "-" into exactly two parts (including the empty listing),
getLatestDirectory returns the empty directory with no error, and
GetLatestLedgerSequence proceeds with the empty directory — returning
sequence 0 when the store lists no files for it — rather than reporting a
failure to find a latest directory; stage 1 errors only when some two-part
trailing segment has a non-numeric second part. -/
theorem C3_no_wellformed_dir :
    ∀ (dirs : List String) (listFiles : String → List String),
    (∀ d ∈ dirs, (dirParts d).length ≠ 2) →
    getLatestDirectory dirs = .ok "" ∧
    (listFiles "" = [] → GetLatestLedgerSequence dirs listFiles = .ok 0) := by
  intro dirs listFiles h
  have hdir : getLatestDirectory dirs = .ok "" := dirAux_all_skip dirs "" 0 h
  refine ⟨hdir, ?_⟩
  intro hf
  simp [GetLatestLedgerSequence, hdir, hf, getLatestFileNameLedgerSequence,
    getLatestFileNameLedgerSequenceAux]

/-- Witness for C3_no_wellformed_dir at a concrete malformed listing. -/
theorem C3_no_wellformed_dir_witness :
    getLatestDirectory ["bad"] = .ok "" ∧
    ((fun _ : String => ([] : List String)) "" = [] →
      GetLatestLedgerSequence ["bad"] (fun _ => []) = .ok 0) :=
  C3_no_wellformed_dir ["bad"] (fun _ => []) (by decide)

/-- Claim C4 (counterexample): at sequence 4294967295 with ledgersPerFile 3
and filesPerPartition 1 — valid uint32 inputs with ledgersPerFile ≥ 1 and
filesPerPartition ≥ 1 — computeObjectKey succeeds but fileEnd, computed
modulo 2^32, wraps to 1, so sequence ≤ fileEnd fails. -/
theorem C4_counterexample :
    GetObjectKeyFromSequenceNumber 4294967295 3 1 = .ok "4294967295-1.xdr.gz" ∧
    fileStartOf 4294967295 3 = 4294967295 ∧
    fileEndOf 4294967295 3 = 1 ∧
    ¬ ((4294967295 : Nat) ≤ 1) := by
  refine ⟨by decide, by decide, by decide, by decide⟩

/-- Claim C4 (amended): for every uint32 sequence, ledgersPerFile ≥ 1 and
filesPerPartition ≥ 1 such that the uint32 arithmetic does not wrap — the
partition size is nonzero modulo 2^32 whenever filesPerPartition > 1, and
fileStart + ledgersPerFile ≤ 2^32 — computeObjectKey succeeds and
fileStart ≤ sequence ≤ fileEnd; when fileStart + ledgersPerFile - 1 wraps
modulo 2^32 the encoded fileEnd drops below the sequence, and when the
partition size wraps to 0 the partition division is a runtime fault. -/
theorem C4_file_bounds :
    ∀ seq lpf fpp : Nat, seq < u32 → 1 ≤ lpf → 1 ≤ fpp →
    ¬ (fpp > 1 ∧ partitionSizeOf lpf fpp = 0) →
    fileStartOf seq lpf + lpf ≤ u32 →
    (∃ k, GetObjectKeyFromSequenceNumber seq lpf fpp = .ok k) ∧
    fileStartOf seq lpf ≤ seq ∧ seq ≤ fileEndOf seq lpf := by
  intro seq lpf fpp hseq hlpf _ hps hnow
  have hfs_raw : seq / lpf * lpf ≤ seq := Nat.div_mul_le_self seq lpf
  have hfs : fileStartOf seq lpf = seq / lpf * lpf := by
    unfold fileStartOf
    exact Nat.mod_eq_of_lt (lt_of_le_of_lt hfs_raw hseq)
  have hseq_lt : seq < seq / lpf * lpf + lpf := by
    conv_lhs => rw [← Nat.div_add_mod seq lpf]
    rw [Nat.mul_comm lpf (seq / lpf)]
    exact Nat.add_lt_add_left (Nat.mod_lt seq hlpf) _
  rw [hfs] at hnow
  have hfe : fileEndOf seq lpf = seq / lpf * lpf + lpf - 1 := by
    unfold fileEndOf
    rw [hfs]
    exact Nat.mod_eq_of_lt (by omega)
  refine ⟨?_, ?_, ?_⟩
  · unfold GetObjectKeyFromSequenceNumber
    rw [if_neg (show ¬ lpf < 1 by omega), if_neg hps]
    exact ⟨_, rfl⟩
  · rw [hfs]
    exact hfs_raw
  · rw [hfe]
    omega

/-- Witness for C4_file_bounds at the spec's pinned configuration. -/
theorem C4_file_bounds_witness :
    (∃ k, GetObjectKeyFromSequenceNumber 5 1 64000 = .ok k) ∧
    fileStartOf 5 1 ≤ 5 ∧ 5 ≤ fileEndOf 5 1 :=
  C4_file_bounds 5 1 64000 (by decide) (by decide) (by decide) (by decide) (by decide)

/-- Claim C5 (confirmed): the two pinned key values hold; the partition prefix
is emitted only when filesPerPartition > 1 (for filesPerPartition ≤ 1 the key
is the bare file name body), and the fileEnd extension is emitted only when
fileStart ≠ fileEnd. -/
theorem C5_key_format :
    GetObjectKeyFromSequenceNumber 5 1 64000 = .ok "0-63999/5.xdr.gz" ∧
    GetObjectKeyFromSequenceNumber 64005 1 64000 = .ok "64000-127999/64005.xdr.gz" ∧
    (∀ seq lpf fpp : Nat, 1 ≤ lpf → fpp ≤ 1 →
      GetObjectKeyFromSequenceNumber seq lpf fpp =
        .ok (toString (fileStartOf seq lpf) ++
          (if fileStartOf seq lpf ≠ fileEndOf seq lpf then
            "-" ++ toString (fileEndOf seq lpf) else "") ++ fileSuffix)) ∧
    (∀ seq lpf fpp : Nat, 1 ≤ lpf → ¬ (fpp > 1 ∧ partitionSizeOf lpf fpp = 0) →
      fileStartOf seq lpf = fileEndOf seq lpf →
      GetObjectKeyFromSequenceNumber seq lpf fpp =
        .ok ((if fpp > 1 then partitionPref seq lpf fpp else "") ++
          toString (fileStartOf seq lpf) ++ fileSuffix)) := by
  refine ⟨by decide, by decide, ?_, ?_⟩
  · intro seq lpf fpp hl hf
    have h1 : ¬ lpf < 1 := by omega
    have h2 : ¬ fpp > 1 := by omega
    simp only [GetObjectKeyFromSequenceNumber]
    rw [if_neg h1, if_neg (fun hc => h2 hc.1), if_neg h2]
    rfl
  · intro seq lpf fpp hl hps heq
    have h1 : ¬ lpf < 1 := by omega
    simp only [GetObjectKeyFromSequenceNumber]
    rw [if_neg h1, if_neg hps, if_neg (not_not_intro heq)]
    rw [String.append_empty]

/-- Witness for C5_key_format: the general conjuncts applied at concrete
configurations. -/
theorem C5_key_format_witness :
    GetObjectKeyFromSequenceNumber 7 1 1 =
      .ok (toString (fileStartOf 7 1) ++
        (if fileStartOf 7 1 ≠ fileEndOf 7 1 then "-" ++ toString (fileEndOf 7 1) else "")
        ++ fileSuffix) ∧
    GetObjectKeyFromSequenceNumber 9 1 64000 =
      .ok ((if (64000 : Nat) > 1 then partitionPref 9 1 64000 else "") ++
        toString (fileStartOf 9 1) ++ fileSuffix) :=
  ⟨C5_key_format.2.2.1 7 1 1 (by decide) (by decide),
    C5_key_format.2.2.2 9 1 64000 (by decide) (by decide) (by decide)⟩

/-- Claim C6 (confirmed): computeObjectKey returns the ConfigError exactly
when ledgersPerFile < 1, i.e. equals 0 as a uint32 — in particular it fails
for ledgersPerFile = 0 at every x and y — and for ledgersPerFile ≥ 1 it
succeeds whenever no other arithmetic hazard (the partition-size division
fault) applies. -/
theorem C6_config_error_iff :
    ∀ x l y : Nat,
    (GetObjectKeyFromSequenceNumber x l y = .error .configError ↔ l = 0) ∧
    (1 ≤ l → ¬ (y > 1 ∧ partitionSizeOf l y = 0) →
      ∃ k, GetObjectKeyFromSequenceNumber x l y = .ok k) := by
  intro x l y
  constructor
  · constructor
    · intro h
      by_contra hne
      have h1 : ¬ l < 1 := by omega
      by_cases h2 : y > 1 ∧ partitionSizeOf l y = 0
      · simp only [GetObjectKeyFromSequenceNumber, if_neg h1, if_pos h2] at h
        exact absurd h (by decide)
      · simp only [GetObjectKeyFromSequenceNumber, if_neg h1, if_neg h2] at h
        cases h
    · intro h
      subst h
      simp [GetObjectKeyFromSequenceNumber]
  · intro hl hy
    unfold GetObjectKeyFromSequenceNumber
    rw [if_neg (show ¬ l < 1 by omega), if_neg hy]
    exact ⟨_, rfl⟩

/-- Witness for C6_config_error_iff: failure at ledgersPerFile 0 and success
at a valid configuration. -/
theorem C6_config_error_iff_witness :
    GetObjectKeyFromSequenceNumber 1 0 5 = .error .configError ∧
    ∃ k, GetObjectKeyFromSequenceNumber 7 1 2 = .ok k :=
  ⟨(C6_config_error_iff 1 0 5).1.mpr rfl,
    (C6_config_error_iff 7 1 2).2 (by decide) (by decide)⟩

/-- Claim C7 (confirmed): in stage 2, if some file name fails to
trim-and-parse as an unsigned 32-bit integer the whole operation fails with a
parse error naming an offending file, and if every file name parses the
result is the maximum parsed sequence (0 for an empty listing). -/
theorem C7_file_stage :
    ∀ (fileNames : List String) (directory : String),
    ((∃ f ∈ fileNames, fileSeqOf directory f = none) →
      ∃ f ∈ fileNames, fileSeqOf directory f = none ∧
        getLatestFileNameLedgerSequence fileNames directory = .error (.parseError f)) ∧
    ((∀ f ∈ fileNames, (fileSeqOf directory f).isSome) →
      ∃ m, getLatestFileNameLedgerSequence fileNames directory = .ok m ∧
        (∀ f ∈ fileNames, ∀ v, fileSeqOf directory f = some v → v ≤ m) ∧
        (m = 0 ∨ ∃ f ∈ fileNames, fileSeqOf directory f = some m)) := by
  intro fileNames directory
  constructor
  · intro hex
    exact fileAux_exists_bad fileNames directory 0 hex
  · intro hall
    obtain ⟨m, hm, _, hbound, hatt⟩ := fileAux_all_parse fileNames directory 0 hall
    exact ⟨m, hm, hbound, hatt⟩

/-- Witness for C7_file_stage at a concrete all-parsable listing. -/
theorem C7_file_stage_witness :
    ∃ m, getLatestFileNameLedgerSequence ["d/5.xdr.gz", "d/9.xdr.gz"] "d" = .ok m ∧
      (∀ f ∈ ["d/5.xdr.gz", "d/9.xdr.gz"], ∀ v, fileSeqOf "d" f = some v → v ≤ m) ∧
      (m = 0 ∨ ∃ f ∈ ["d/5.xdr.gz", "d/9.xdr.gz"], fileSeqOf "d" f = some m) :=
  (C7_file_stage ["d/5.xdr.gz", "d/9.xdr.gz"] "d").2 (by decide)

/-- Claim C8 (counterexample): ledgers/net/5-0 is the only well-formed
directory name in its listing and so carries the largest trailing end value,
0; yet the strict greater-than comparison against the initial accumulator 0
never selects it and the scan returns the empty directory instead. -/
theorem C8_counterexample :
    getLatestDirectory ["ledgers/net/5-0"] = .ok "" ∧
    ("" : String) ≠ "ledgers/net/5-0" := by
  constructor
  · decide
  · decide

/-- Claim C8 (amended): selection compares each well-formed name's end value
with strict greater-than against an accumulator that starts at 0. Hence,
provided no name aborts the scan with a parse error, a name whose end value
is ≤ 0 is never selected — if every end value is ≤ 0 the empty directory
results — and when the maximal end value is positive the first name attaining
it in traversal order is selected; in particular ties on the maximum keep the
first. -/
theorem C8_first_max_selected :
    ∀ dirs : List String,
    (∀ d ∈ dirs, (dirParts d).length = 2 → dirEndVal d ≠ none) →
    ((∀ d ∈ dirs, ∀ m, dirEnd d = some m → m ≤ 0) → getLatestDirectory dirs = .ok "") ∧
    (∀ (pre : List String) (d : String) (post : List String) (m : Int),
      dirs = pre ++ d :: post → dirEnd d = some m → 0 < m →
      (∀ p ∈ pre, ∀ m', dirEnd p = some m' → m' < m) →
      (∀ q ∈ dirs, ∀ m', dirEnd q = some m' → m' ≤ m) →
      getLatestDirectory dirs = .ok d) := by
  intro dirs hok
  constructor
  · intro hle
    exact dirAux_all_le dirs "" 0 hok
      (fun d hd m hm => by have := hle d hd m hm; omega)
  · intro pre d post m hdirs hd hm hpre hall
    subst hdirs
    exact dirAux_first_max pre "" 0 d post m hok hd hm hpre
      (fun q hq m' hm' => by have := hall q (by simp [hq]) m' hm'; omega)

/-- Witness for C8_first_max_selected: a tie on the maximal end value 7 keeps
the first of the two attaining names. -/
theorem C8_first_max_selected_witness :
    getLatestDirectory ["a/0-7", "b/0-7", "c/0-3"] = .ok "a/0-7" :=
  (C8_first_max_selected ["a/0-7", "b/0-7", "c/0-3"] (by decide)).2
    [] "a/0-7" ["b/0-7", "c/0-3"] 7 rfl (by decide) (by decide) (by decide) (by decide)

/-- Claim C9 (counterexample): for the bounded range 1..2 with a getLedger
failing on every sequence, PrepareRange probes only sequence 1 and returns
early, so getLedger is not called on range.to although bounded is true. -/
theorem C9_counterexample :
    (PrepareRange (fun _ => (.err "not found" : GetLedgerResult Unit))
      { fromSeq := 1, toSeq := 2, bounded := true }).2 = [1] ∧
    ({ fromSeq := 1, toSeq := 2, bounded := true } : Range).bounded = true ∧
    (2 : Nat) ∉ ([1] : List Nat) := by
  refine ⟨rfl, rfl, by decide⟩

/-- Claim C9 (amended): PrepareRange always probes range.from; it probes
range.to exactly when bounded is true and the from probe succeeded; it
returns the wrapped from error when from fails, the wrapped to error when
from succeeds, the range is bounded and to fails, and ok when every probed
boundary succeeds. -/
theorem C9_prepare_range :
    ∀ (α : Type) (gl : Nat → GetLedgerResult α) (r : Range),
    (PrepareRange gl r).2 =
      (if (gl r.fromSeq).isOk = true ∧ r.bounded = true then [r.fromSeq, r.toSeq]
       else [r.fromSeq]) ∧
    (∀ e, gl r.fromSeq = .err e →
      (PrepareRange gl r).1 =
        .err ("error getting ledger " ++ toString r.fromSeq ++ ": " ++ e)) ∧
    (∀ a, gl r.fromSeq = .ok a → r.bounded = false → (PrepareRange gl r).1 = .ok) ∧
    (∀ a e, gl r.fromSeq = .ok a → r.bounded = true → gl r.toSeq = .err e →
      (PrepareRange gl r).1 =
        .err ("error getting ending ledger " ++ toString r.toSeq ++ ": " ++ e)) ∧
    (∀ a b, gl r.fromSeq = .ok a → r.bounded = true → gl r.toSeq = .ok b →
      (PrepareRange gl r).1 = .ok) := by
  intro α gl r
  refine ⟨?_, ?_, ?_, ?_, ?_⟩
  · rcases hfrom : gl r.fromSeq with a | e | ⟨i, l⟩
    · rcases hb : r.bounded with _ | _
      · simp [PrepareRange, hfrom, hb, GetLedgerResult.isOk]
      · rcases hto : gl r.toSeq with b | e' | ⟨i', l'⟩ <;>
          simp [PrepareRange, hfrom, hb, hto, GetLedgerResult.isOk]
    · simp [PrepareRange, hfrom, GetLedgerResult.isOk]
    · simp [PrepareRange, hfrom, GetLedgerResult.isOk]
  · intro e he
    simp [PrepareRange, he]
  · intro a ha hb
    simp [PrepareRange, ha, hb]
  · intro a e ha hb hto
    simp [PrepareRange, ha, hb, hto]
  · intro a b ha hb hto
    simp [PrepareRange, ha, hb, hto]

/-- Witness for C9_prepare_range: both boundaries reachable on a bounded
range gives ok. -/
theorem C9_prepare_range_witness :
    (PrepareRange (fun _ => (.ok () : GetLedgerResult Unit))
      { fromSeq := 1, toSeq := 2, bounded := true }).1 = .ok :=
  (C9_prepare_range Unit (fun _ => .ok ())
    { fromSeq := 1, toSeq := 2, bounded := true }).2.2.2.2 () () rfl rfl rfl

/-- Claim C10 (confirmed): with filesPerPartition = 0 the partition branch is
not taken because 0 > 1 is false, so computeObjectKey does not fail and
produces exactly the key of filesPerPartition = 1 — the bare file name with
no partition prefix — silently accepting a configuration outside the data
model's filesPerPartition ≥ 1 invariant. -/
theorem C10_fpp_zero :
    ∀ seq lpf : Nat, 1 ≤ lpf →
    GetObjectKeyFromSequenceNumber seq lpf 0 = GetObjectKeyFromSequenceNumber seq lpf 1 ∧
    GetObjectKeyFromSequenceNumber seq lpf 0 =
      .ok (toString (fileStartOf seq lpf) ++
        (if fileStartOf seq lpf ≠ fileEndOf seq lpf then
          "-" ++ toString (fileEndOf seq lpf) else "") ++ fileSuffix) := by
  intro seq lpf hl
  have h1 : ¬ lpf < 1 := by omega
  constructor
  · simp [GetObjectKeyFromSequenceNumber, h1]
  · simp only [GetObjectKeyFromSequenceNumber]
    rw [if_neg h1, if_neg (show ¬ ((0 : Nat) > 1 ∧ partitionSizeOf lpf 0 = 0) from
      fun hc => by omega), if_neg (show ¬ (0 : Nat) > 1 by omega)]
    rfl

/-- Witness for C10_fpp_zero at a concrete configuration. -/
theorem C10_fpp_zero_witness :
    GetObjectKeyFromSequenceNumber 5 2 0 = GetObjectKeyFromSequenceNumber 5 2 1 ∧
    GetObjectKeyFromSequenceNumber 5 2 0 =
      .ok (toString (fileStartOf 5 2) ++
        (if fileStartOf 5 2 ≠ fileEndOf 5 2 then
          "-" ++ toString (fileEndOf 5 2) else "") ++ fileSuffix) :=
  C10_fpp_zero 5 2 (by decide)

example : GetObjectKeyFromSequenceNumber 5 1 64000 = .ok "0-63999/5.xdr.gz" := rfl

example : GetObjectKeyFromSequenceNumber 64005 1 64000 = .ok "64000-127999/64005.xdr.gz" := rfl

example : getLatestDirectory ["ledgers/net/0-63999", "ledgers/net/64000-127999", "bad-dir"] =
    .error (.parseError "bad-dir") := by decide

example : getLatestDirectory [] = .ok "" := by decide

example : getLatestFileNameLedgerSequence
    ["d/5.xdr.gz", "d/7.xdr.gz", "d/6.xdr.gz"] "d" = .ok 7 := by decide

end ledgerbackend
